import Mathlib

/-
Shallow embedding of pruneExport.py (tag-driven pruning of a workspace
export tree) and verification of its specification.

Modelling conventions:
- Each per-stage filter is translated record-by-record from the source.
  File contents are passed as lists of records; a missing file is `none`.
- The source loads each log with pandas; pandas column semantics are
  modelled explicitly where the code uses them:
  - attribute access on a DataFrame column that does not exist (because no
    record in the file carries the key) raises AttributeError; this happens
    in prune_clusters for custom_tags / z_team and in prune_jobs for
    existing_cluster_id / new_cluster / z_team.  We model it as an
    Except.error guarded by a has-column check (some record carries the key).
  - Series.str.split(sep, expand=True)[k] raises KeyError unless some row
    splits into more than k parts; per row the value is NaN (never matching
    isin) when the row has too few parts.  Modelled by expandOk plus
    Option-valued segment lookup.
  - Series.str.split(sep).str[k] (no expand) is NaN-safe per row: no error,
    rows with too few parts simply never match. Modelled by Option lookup.
  - isin(xs) on NaN is False; pd.concat keeps duplicate rows; rows are
    written one JSON object per line, so the written file is exactly the
    final record list, duplicates included.
- Python str.split on a one-character separator is splitOnChar;
  "/".join is joinSlash; substring containment (the `in` operator) is
  strContainsSub; t.replace("_", "-") on a single-char pattern is hyphenate;
  t.split("_")[1] is underscoreTok (none models the IndexError).
- Destination files are modelled as Option contents: the stages only test
  existence for their skip logic, except prune_clusters / prune_jobs which
  re-read the destination file when skipping, which is why those functions
  consume the destination contents while prune_workspace_metadata ignores
  them.
-/

namespace PruneExport

/-! ## String helpers (faithful to the Python string operations used) -/

/-- Prefix test on raw element lists (Python startswith-style helper used to
define substring containment). -/
def isPre {α : Type} [DecidableEq α] : List α → List α → Bool
  | [], _ => true
  | _ :: _, [] => false
  | a :: as, b :: bs => decide (a = b) && isPre as bs

/-- Contiguous-sublist test: Python `pat in s` on strings, element-list form. -/
def listContains {α : Type} [DecidableEq α] (pat : List α) : List α → Bool
  | [] => isPre pat []
  | a :: rest => isPre pat (a :: rest) || listContains pat rest

/-- Python `pat in s` for strings. -/
def strContainsSub (s pat : String) : Bool :=
  listContains pat.data s.data

/-- Python s.split(sep) for a single-character separator, char-list worker. -/
def splitCharsAux (sep : Char) : List Char → List Char → List (List Char)
  | [], acc => [acc.reverse]
  | c :: cs, acc =>
    if c = sep then acc.reverse :: splitCharsAux sep cs []
    else splitCharsAux sep cs (c :: acc)

/-- Python s.split(sep) for a single-character separator. -/
def splitOnChar (sep : Char) (s : String) : List String :=
  (splitCharsAux sep s.data []).map String.mk

/-- Segment i of a "/"-separated path; none when the path has too few
segments (pandas NaN). -/
def splitSeg (s : String) (i : Nat) : Option String :=
  (splitOnChar '/' s).get? i

/-- Number of "/"-separated parts of a path. -/
def numParts (s : String) : Nat :=
  (splitOnChar '/' s).length

/-- Python "/".join(xs). -/
def joinSlash : List String → String
  | [] => ""
  | [s] => s
  | s :: t :: rest => s ++ "/" ++ joinSlash (t :: rest)

/-- Path with its final "/"-separated segment removed:
p.split("/")[:-1] joined back with "/". -/
def parentPath (s : String) : String :=
  joinSlash ((splitOnChar '/' s).dropLast)

/-- Python t.replace("_", "-"). -/
def hyphenate (t : String) : String :=
  String.mk (t.data.map (fun c => if c = '_' then '-' else c))

/-- Python t.split("_")[1]; none models the IndexError raised when the tag
has no underscore. -/
def underscoreTok (t : String) : Option String :=
  (splitOnChar '_' t).get? 1

/-- Column k of Series.str.split("/", expand=True) exists iff some row has
more than k parts; otherwise indexing the column raises KeyError. -/
def expandOk (k : Nat) (ps : List String) : Bool :=
  ps.any (fun p => decide (k < numParts p))

/-- List comprehension that can throw: all elements must map successfully
(Python raises on the first failing element; the result is all-or-nothing). -/
def mapOrFail {α β : Type} (f : α → Option β) : List α → Option (List β)
  | [] => some []
  | a :: rest =>
    match f a, mapOrFail f rest with
    | some b, some bs => some (b :: bs)
    | _, _ => none

/-- Number of occurrences of a in l (multiplicity of a written record). -/
def occ {α : Type} [DecidableEq α] (a : α) : List α → Nat
  | [] => 0
  | b :: l => (if b = a then 1 else 0) + occ a l

/-! ## Record types (one per log-file schema used by the filters) -/

/-- custom_tags dictionary; z_team is an optional key. -/
structure CustomTags where
  z_team : Option String
deriving DecidableEq

/-- One line of clusters.log. -/
structure Cluster where
  cluster_id : String
  custom_tags : Option CustomTags
deriving DecidableEq

/-- One line of an ACL log (acl_clusters, acl_jobs, acl_directories,
acl_notebooks): object_id is a path such as "/clusters/<id>". -/
structure Acl where
  object_id : String
deriving DecidableEq

/-- settings.new_cluster embedded specification of a job. -/
structure NewCluster where
  custom_tags : Option CustomTags
deriving DecidableEq

/-- settings dictionary of a job. -/
structure JobSettings where
  existing_cluster_id : Option String
  new_cluster : Option NewCluster
deriving DecidableEq

/-- One line of jobs.log. -/
structure Job where
  job_id : Nat
  settings : JobSettings
deriving DecidableEq

/-- One file of the groups directory: its filename and the userName of each
member. -/
structure Group where
  name : String
  members : List String
deriving DecidableEq

/-- One line of users.log. -/
structure UserRec where
  userName : String
  id : Nat
deriving DecidableEq

/-- One line of user_dirs.log. -/
structure DirRec where
  path : String
  object_id : Nat
deriving DecidableEq

/-- One line of user_workspace.log. -/
structure WsObj where
  path : String
  object_id : Nat
deriving DecidableEq

/-- One line of libraries.log. -/
structure LibRec where
  path : String
deriving DecidableEq

/-! ## prune_clusters (pruneExport.py lines 114-142) -/

/-- Row predicate of line 129:
clusters_df.custom_tags.apply(pd.Series).z_team.isin(tags). -/
def clusterKeep (tags : List String) (c : Cluster) : Bool :=
  match c.custom_tags with
  | some m =>
    match m.z_team with
    | some v => decide (v ∈ tags)
    | none => false
  | none => false

/-- The custom_tags column exists iff some record carries the key. -/
def clustersHasCustomTagsCol (cs : List Cluster) : Bool :=
  cs.any (fun c => c.custom_tags.isSome)

/-- The z_team column of the expanded custom_tags exists iff some
custom_tags dictionary carries the key. -/
def clustersHasZteamCol (cs : List Cluster) : Bool :=
  cs.any (fun c =>
    match c.custom_tags with
    | some m => m.z_team.isSome
    | none => false)

/-- Line 129 as a whole: AttributeError when the custom_tags or z_team
column is missing, otherwise the row filter. -/
def prune_clusters_filter (tags : List String) (cs : List Cluster) :
    Except String (List Cluster) :=
  if clustersHasCustomTagsCol cs = false then
    .error "AttributeError: custom_tags"
  else if clustersHasZteamCol cs = false then
    .error "AttributeError: z_team"
  else .ok (cs.filter (clusterKeep tags))

/-- ACL row predicate used by lines 139, 176 (non-expand variant) and by
lines 308, 316 (expand variant): object_id.split("/")[2] in ids. -/
def aclKeep (ids : List String) (a : Acl) : Bool :=
  match splitSeg a.object_id 2 with
  | some s => decide (s ∈ ids)
  | none => false

/-- Observable outcome of prune_clusters: the returned keep-set and the
files written this run (none = not written). -/
structure ClustersResult where
  copied_clusters : List String
  written_clusters : Option (List Cluster)
  written_acls : Option (List Acl)
deriving DecidableEq

/-- Lines 124-130: clusters_df is the existing destination file when it can
be skipped, otherwise the freshly filtered source (which is also written). -/
def prune_clusters_df (tags : List String) (sc : List Cluster)
    (dstClusters : Option (List Cluster)) (overwrite : Bool) :
    Except String (List Cluster × Option (List Cluster)) :=
  match dstClusters with
  | some dc =>
    if overwrite = false then .ok (dc, none)
    else
      match prune_clusters_filter tags sc with
      | .error e => .error e
      | .ok kept => .ok (kept, some kept)
  | none =>
    match prune_clusters_filter tags sc with
    | .error e => .error e
    | .ok kept => .ok (kept, some kept)

/-- Lines 114-142. srcClusters/srcAcls are the source file contents (none =
missing file); dstClusters/dstAcls the destination contents (none = file
absent; the acl destination is only tested for existence). -/
def prune_clusters_run (tags : List String) (srcClusters : Option (List Cluster))
    (dstClusters : Option (List Cluster)) (srcAcls : Option (List Acl))
    (dstAcls : Option (List Acl)) (overwrite : Bool) :
    Except String ClustersResult :=
  match srcClusters with
  | none => .ok ⟨[], none, none⟩
  | some sc =>
    match prune_clusters_df tags sc dstClusters overwrite with
    | .error e => .error e
    | .ok cdf =>
      if dstAcls.isSome = true ∧ overwrite = false then
        .ok ⟨cdf.1.map (fun c => c.cluster_id), cdf.2, none⟩
      else
        match srcAcls with
        | none => .error "read acl_clusters.log: file missing"
        | some acls =>
          .ok ⟨cdf.1.map (fun c => c.cluster_id), cdf.2,
               some (acls.filter (aclKeep (cdf.1.map (fun c => c.cluster_id))))⟩

/-! ## prune_jobs (pruneExport.py lines 145-177) -/

/-- Row predicate of line 160:
settings.apply(pd.Series).existing_cluster_id.isin(clusters). -/
def jobCond1 (clusters : List String) (j : Job) : Bool :=
  match j.settings.existing_cluster_id with
  | some c => decide (c ∈ clusters)
  | none => false

/-- Row predicate of line 163: the embedded new-cluster tag matches. -/
def jobCond2 (tags : List String) (j : Job) : Bool :=
  match j.settings.new_cluster with
  | some nc =>
    match nc.custom_tags with
    | some ct =>
      match ct.z_team with
      | some v => decide (v ∈ tags)
      | none => false
    | none => false
  | none => false

/-- The job carries settings.new_cluster.custom_tags. -/
def jobHasCT (j : Job) : Bool :=
  match j.settings.new_cluster with
  | some nc => nc.custom_tags.isSome
  | none => false

/-- The job carries settings.new_cluster.custom_tags.z_team. -/
def jobHasZ (j : Job) : Bool :=
  match j.settings.new_cluster with
  | some nc =>
    match nc.custom_tags with
    | some ct => ct.z_team.isSome
    | none => false
  | none => false

def jobsHasEcidCol (js : List Job) : Bool :=
  js.any (fun j => j.settings.existing_cluster_id.isSome)

def jobsHasNewClusterCol (js : List Job) : Bool :=
  js.any (fun j => j.settings.new_cluster.isSome)

def jobsHasCustomTagsCol (js : List Job) : Bool :=
  js.any jobHasCT

def jobsHasZteamCol (js : List Job) : Bool :=
  js.any jobHasZ

/-- Lines 159-166: jobs_existing and jobs_new are concatenated with
pd.concat, so the written record list keeps duplicates.  The custom_tags
column reached through .get may be absent (then only jobs_existing is
written); the columns reached through attribute access raise when absent. -/
def prune_jobs_select (tags clusters : List String) (js : List Job) :
    Except String (List Job) :=
  if jobsHasEcidCol js = false then .error "AttributeError: existing_cluster_id"
  else if jobsHasNewClusterCol js = false then .error "AttributeError: new_cluster"
  else if jobsHasCustomTagsCol js = true then
    if jobsHasZteamCol js = false then .error "AttributeError: z_team"
    else .ok (js.filter (jobCond1 clusters) ++ js.filter (jobCond2 tags))
  else .ok (js.filter (jobCond1 clusters))

/-- Observable outcome of prune_jobs. -/
structure JobsResult where
  written_jobs : Option (List Job)
  written_acls : Option (List Acl)
deriving DecidableEq

/-- Lines 152-168: jobs_df is the existing destination file when it can be
skipped, otherwise the freshly selected source records (also written). -/
def prune_jobs_df (tags clusters : List String) (sj : List Job)
    (dstJobs : Option (List Job)) (overwrite : Bool) :
    Except String (List Job × Option (List Job)) :=
  match dstJobs with
  | some dj =>
    if overwrite = false then .ok (dj, none)
    else
      match prune_jobs_select tags clusters sj with
      | .error e => .error e
      | .ok kept => .ok (kept, some kept)
  | none =>
    match prune_jobs_select tags clusters sj with
    | .error e => .error e
    | .ok kept => .ok (kept, some kept)

/-- Lines 145-177; the job-ACL filter builds str(job_id) over whatever
record list jobs_df holds (freshly filtered or re-read from destination). -/
def prune_jobs_run (tags clusters : List String) (srcJobs : Option (List Job))
    (dstJobs : Option (List Job)) (srcAcls : Option (List Acl))
    (dstAcls : Option (List Acl)) (overwrite : Bool) :
    Except String JobsResult :=
  match srcJobs with
  | none => .ok ⟨none, none⟩
  | some sj =>
    match prune_jobs_df tags clusters sj dstJobs overwrite with
    | .error e => .error e
    | .ok jdf =>
      if dstAcls.isSome = true ∧ overwrite = false then
        .ok ⟨jdf.2, none⟩
      else
        match srcAcls with
        | none => .error "read acl_jobs.log: file missing"
        | some acls =>
          .ok ⟨jdf.2,
               some (acls.filter (aclKeep (jdf.1.map (fun j => toString j.job_id))))⟩

/-! ## prune_groups / prune_users (pruneExport.py lines 198-246) -/

/-- Line 217: the group filename contains some tag with underscores replaced
by hyphens. -/
def groupMatch (tags : List String) (g : Group) : Bool :=
  tags.any (fun t => strContainsSub g.name (hyphenate t))

/-- Lines 213-228: users_to_keep collects every member userName of every
matching group (a list; duplicates across groups are harmless). -/
def prune_groups_users (tags : List String) (gs : List Group) : List String :=
  ((gs.filter (groupMatch tags)).map (fun g => g.members)).flatten

/-- Lines 243-246: a user record survives iff its userName is in the
keep-list (the astype(str) on id does not change which rows survive). -/
def prune_users_filter (users_to_keep : List String) (us : List UserRec) :
    List UserRec :=
  us.filter (fun u => decide (u.userName ∈ users_to_keep))

/-- Lines 215-228, the loop body of prune_groups over a filename listing:
for each filename matching the tag filter (line 217), the group file is
opened FROM THE SOURCE groups directory (line 222, src_groups_dir even when
the listing came from the destination) and its member userNames are
collected; a listed, matching filename with no source file raises
FileNotFoundError on open. -/
def groupsCollect (tags : List String) (srcGroups : List Group) :
    List String → Except String (List String)
  | [] => .ok []
  | n :: rest =>
    if (tags.any fun t => strContainsSub n (hyphenate t)) = true then
      match srcGroups.find? (fun g => decide (g.name = n)) with
      | none => .error "read group file: file missing"
      | some g =>
        match groupsCollect tags srcGroups rest with
        | .error e => .error e
        | .ok us => .ok (g.members ++ us)
    else groupsCollect tags srcGroups rest

/-- Lines 198-228 with the destination state.  When the destination groups
directory exists and overwrite is off (lines 203-206), the iterated
filename listing is the DESTINATION directory's (dstGroupNames), yet the
tag filter is re-applied to it and the member data is still read from the
source files; otherwise the source listing is used. -/
def prune_groups_run (tags : List String) (srcGroups : List Group)
    (dstGroupNames : Option (List String)) (overwrite : Bool) :
    Except String (List String) :=
  match dstGroupNames, overwrite with
  | some dns, false => groupsCollect tags srcGroups dns
  | some _, true => groupsCollect tags srcGroups (srcGroups.map (fun g => g.name))
  | none, _ => groupsCollect tags srcGroups (srcGroups.map (fun g => g.name))

/-! ## prune_workspace_metadata (pruneExport.py lines 249-328) -/

/-- Destination contents of the five metadata files; the stage only tests
existence (it never reads any of them), so the contents are carried but
ignored by the computation. -/
structure MetaDst where
  user_dirs : Option (List DirRec)
  user_ws : Option (List WsObj)
  dir_acls : Option (List Acl)
  obj_acls : Option (List Acl)
  libraries : Option (List LibRec)
deriving DecidableEq

/-- Source contents of the five metadata files (none = missing file). -/
structure MetaSrc where
  user_dirs : Option (List DirRec)
  user_ws : Option (List WsObj)
  dir_acls : Option (List Acl)
  obj_acls : Option (List Acl)
  libraries : Option (List LibRec)
deriving DecidableEq

/-- Lines 263-266: the whole stage is skipped iff not overwrite and all five
destination files exist (the source tests dst_users_dirs twice; the
duplicate test is collapsed). -/
def metaSkipAll (dst : MetaDst) (ow : Bool) : Bool :=
  !ow && (dst.user_dirs.isSome && (dst.user_ws.isSome &&
    (dst.dir_acls.isSome && (dst.obj_acls.isSome && dst.libraries.isSome))))

/-- Line 273 row predicate: path.str.split("/", expand=True)[1] == "Users". -/
def userDirSel (d : DirRec) : Bool :=
  decide (splitSeg d.path 1 = some "Users")

/-- Line 274 row predicate: second segment == "teams". -/
def teamDirSel (d : DirRec) : Bool :=
  decide (splitSeg d.path 1 = some "teams")

/-- Row predicate of lines 277 and 279: third path segment is in xs (NaN row
never matches). -/
def seg2In (xs : List String) (d : DirRec) : Bool :=
  match splitSeg d.path 2 with
  | some u => decide (u ∈ xs)
  | none => false

/-- Line 272: paths with exactly two "/"-separated parts. -/
def metaTopLevel (dirs : List DirRec) : List DirRec :=
  dirs.filter (fun d => decide (numParts d.path = 2))

/-- Line 277: Users directories whose third segment is a kept username. -/
def metaUserDirs (users : List String) (dirs : List DirRec) : List DirRec :=
  (dirs.filter userDirSel).filter (seg2In users)

/-- Line 279: teams directories whose third segment is in tags_short + tags. -/
def metaTeamDirs (tags_short tags : List String) (dirs : List DirRec) :
    List DirRec :=
  (dirs.filter teamDirSel).filter (seg2In (tags_short ++ tags))

/-- Line 280: all_dirs = pd.concat([user_dirs, team_dirs]). -/
def metaAllDirs (users tags_short tags : List String) (dirs : List DirRec) :
    List DirRec :=
  metaUserDirs users dirs ++ metaTeamDirs tags_short tags dirs

/-- Line 294 row predicate: the path with its last segment removed is one of
the copied directory paths. -/
def wsParentKeep (copied : List String) (p : String) : Bool :=
  decide (parentPath p ∈ copied)

/-- Line 294: workspace objects whose containing directory was copied. -/
def metaWsKept (copied : List String) (ws : List WsObj) : List WsObj :=
  ws.filter (fun w => wsParentKeep copied w.path)

/-- Lines 303-309 and 311-317 (identical shape): skip when the destination
exists without overwrite; otherwise read the source ACL file (raising when
missing), index the expanded third segment (KeyError when no row has one)
and keep rows whose segment is in ids. -/
def metaAclOut (skip : Bool) (srcAcls : Option (List Acl)) (ids : List String) :
    Except String (Option (List Acl)) :=
  if skip = true then .ok none
  else
    match srcAcls with
    | none => .error "read acl log: file missing"
    | some acls =>
      if expandOk 2 (acls.map (fun a => a.object_id)) = false then
        .error "KeyError: 2"
      else .ok (some (acls.filter (aclKeep ids)))

/-- Lines 319-328: the missing-source warning does not skip anything — the
else branch still reads the file, so a missing libraries.log raises; an
empty DataFrame is not written at all. -/
def metaLibOut (skip : Bool) (srcLibs : Option (List LibRec))
    (copied : List String) : Except String (Option (List LibRec)) :=
  if skip = true then .ok none
  else
    match srcLibs with
    | none => .error "read libraries.log: file missing"
    | some libs =>
      if libs.isEmpty = true then .ok none
      else .ok (some (libs.filter (fun l => wsParentKeep copied l.path)))

/-- Observable outcome of prune_workspace_metadata: the locals all_dirs,
copied_dirs, dir_ids, file_ids and the filtered workspace objects, plus the
five files written this run (none = not written). -/
structure MetaResult where
  all_dirs : List DirRec
  copied_dirs : List String
  dir_ids : List String
  file_ids : List String
  ws_kept : List WsObj
  written_user_dirs : Option (List DirRec)
  written_user_ws : Option (List WsObj)
  written_dir_acls : Option (List Acl)
  written_obj_acls : Option (List Acl)
  written_libraries : Option (List LibRec)
deriving DecidableEq

/-- Lines 249-328.  Note that outside the all-five-files skip the stage
always reads and filters the SOURCE user_dirs.log (line 271 has no
existence check, so a missing file raises), and the destination contents in
dst are never consulted. -/
def prune_workspace_metadata_run (tags users : List String) (src : MetaSrc)
    (dst : MetaDst) (ow : Bool) : Except String MetaResult :=
  if metaSkipAll dst ow = true then
    .ok ⟨[], [], [], [], [], none, none, none, none, none⟩
  else
    match src.user_dirs with
    | none => .error "read user_dirs.log: file missing"
    | some dirs =>
      if expandOk 1 (dirs.map (fun d => d.path)) = false then
        .error "KeyError: 1"
      else if expandOk 2 ((dirs.filter userDirSel).map (fun d => d.path)) = false then
        .error "KeyError: 2"
      else
        match mapOrFail underscoreTok tags with
        | none => .error "IndexError: list index out of range"
        | some tags_short =>
          if expandOk 2 ((dirs.filter teamDirSel).map (fun d => d.path)) = false then
            .error "KeyError: 2"
          else
            match src.user_ws with
            | none => .error "read user_workspace.log: file missing"
            | some ws =>
              match
                metaAclOut (dst.dir_acls.isSome && !ow) src.dir_acls
                  ((metaAllDirs users tags_short tags dirs).map
                    (fun d => toString d.object_id)) with
              | .error e => .error e
              | .ok wda =>
                match
                  metaAclOut (dst.obj_acls.isSome && !ow) src.obj_acls
                    ((metaWsKept
                        ((metaAllDirs users tags_short tags dirs).map (fun d => d.path))
                        ws).map (fun w => toString w.object_id)) with
                | .error e => .error e
                | .ok woa =>
                  match
                    metaLibOut (dst.libraries.isSome && !ow) src.libraries
                      ((metaAllDirs users tags_short tags dirs).map (fun d => d.path)) with
                  | .error e => .error e
                  | .ok wl =>
                    .ok ⟨metaAllDirs users tags_short tags dirs,
                         (metaAllDirs users tags_short tags dirs).map (fun d => d.path),
                         (metaAllDirs users tags_short tags dirs).map
                           (fun d => toString d.object_id),
                         (metaWsKept
                             ((metaAllDirs users tags_short tags dirs).map (fun d => d.path))
                             ws).map (fun w => toString w.object_id),
                         metaWsKept
                           ((metaAllDirs users tags_short tags dirs).map (fun d => d.path))
                           ws,
                         (if dst.user_dirs.isSome = true ∧ ow = false then none
                          else some (metaTopLevel dirs ++ metaAllDirs users tags_short tags dirs)),
                         (if dst.user_ws.isSome = true ∧ ow = false then none
                          else some (metaWsKept
                            ((metaAllDirs users tags_short tags dirs).map (fun d => d.path))
                            ws)),
                         wda, woa, wl⟩

/-! ## prune_artifacts (pruneExport.py lines 331-355) -/

/-- Which artifact subtrees were selected for copying. -/
structure ArtifactsResult where
  teams_copied : List String
  users_copied : List String
deriving DecidableEq

/-- Lines 331-355.  teamsDir/usersDir hold the immediate subdirectory names
of artifacts/teams and artifacts/Users, or none when the directory does not
exist.  The guard of the Users loop (line 349) tests the TEAMS directory,
faithfully to the source: with artifacts/teams absent the Users loop never
runs, and with artifacts/teams present but artifacts/Users absent the
os.walk list is empty and indexing it raises.  The per-tag comprehension
of line 343 is evaluated on the first loop iteration only, so an
underscore-free tag raises only when the teams directory has entries. -/
def prune_artifacts_run (tags users_to_keep : List String)
    (teamsDir usersDir : Option (List String)) :
    Except String ArtifactsResult :=
  match teamsDir with
  | none => .ok ⟨[], []⟩
  | some ds =>
    match
      (if ds.isEmpty = true then Except.ok ([] : List String)
       else
         match mapOrFail underscoreTok tags with
         | none => Except.error "IndexError: list index out of range"
         | some ts => Except.ok (ds.filter (fun d => decide (d ∈ ts)))) with
    | .error e => .error e
    | .ok teams_copied =>
      match usersDir with
      | none => .error "IndexError: list index out of range"
      | some us => .ok ⟨teams_copied, us.filter (fun d => decide (d ∈ users_to_keep))⟩

/-! ## Concrete sample records used by the closed evaluations -/

/-- A job whose existing_cluster_id is c1 and whose embedded new-cluster
z_team tag is team_alpha: it satisfies both keep conditions at once. -/
def dupJob : Job := ⟨1, ⟨some "c1", some ⟨some ⟨some "team_alpha"⟩⟩⟩⟩

/-- A cluster tagged z_team = team_alpha. -/
def taggedCluster : Cluster := ⟨"c1", some ⟨some "team_alpha"⟩⟩

/-- A source metadata tree: one user directory, one matching team directory,
one workspace object inside the team directory, one ACL for each, and an
empty libraries file. -/
def c3Src : MetaSrc :=
  ⟨some [⟨"/Users/bob", 1⟩, ⟨"/teams/alpha", 2⟩],
   some [⟨"/teams/alpha/nb", 3⟩],
   some [⟨"/directories/2"⟩],
   some [⟨"/notebooks/3"⟩],
   some []⟩

/-- A destination where user_dirs.log already exists (with no records) and
nothing else does. -/
def c3Dst : MetaDst := ⟨some [], none, none, none, none⟩

/-- The metadata result the code produces on c3Src / c3Dst without
overwrite: the keep-sets are re-derived from the source even though the
destination user_dirs.log exists (only its write is skipped). -/
def c3Meta : MetaResult :=
  ⟨[⟨"/teams/alpha", 2⟩], ["/teams/alpha"], ["2"], ["3"],
   [⟨"/teams/alpha/nb", 3⟩], none, some [⟨"/teams/alpha/nb", 3⟩],
   some [⟨"/directories/2"⟩], some [⟨"/notebooks/3"⟩], none⟩

/-- The clusters result of a skip run against an existing destination
clusters.log holding one cluster with id c9. -/
def c3Rc : ClustersResult := ⟨["c9"], none, none⟩

/-- A source metadata tree with a kept user directory, a kept team
directory, a workspace object, one ACL each and one library. -/
def c6Src : MetaSrc :=
  ⟨some [⟨"/Users/bob", 1⟩, ⟨"/teams/alpha", 2⟩],
   some [⟨"/teams/alpha/nb", 3⟩],
   some [⟨"/directories/2"⟩],
   some [⟨"/notebooks/3"⟩],
   some [⟨"/teams/alpha/lib1"⟩]⟩

/-- A fresh destination: none of the five metadata files exist. -/
def freshDst : MetaDst := ⟨none, none, none, none, none⟩

/-- Result of the metadata stage on c6Src against freshDst with tag
team_alpha and kept user bob. -/
def c6Meta : MetaResult :=
  ⟨[⟨"/Users/bob", 1⟩, ⟨"/teams/alpha", 2⟩],
   ["/Users/bob", "/teams/alpha"], ["1", "2"], ["3"],
   [⟨"/teams/alpha/nb", 3⟩],
   some [⟨"/Users/bob", 1⟩, ⟨"/teams/alpha", 2⟩],
   some [⟨"/teams/alpha/nb", 3⟩],
   some [⟨"/directories/2"⟩],
   some [⟨"/notebooks/3"⟩],
   some [⟨"/teams/alpha/lib1"⟩]⟩

/-- Result of a fresh clusters run on one tagged cluster and its ACL. -/
def c6Rc : ClustersResult :=
  ⟨["c1"], some [taggedCluster], some [⟨"/clusters/c1"⟩]⟩

/-- Result of a fresh jobs run on the double-matching job and its ACL. -/
def c6Rj : JobsResult := ⟨some [dupJob, dupJob], some [⟨"/jobs/1"⟩]⟩

/-! ## General lemmas about the helpers -/

theorem occ_append {α : Type} [DecidableEq α] (a : α) (l₁ l₂ : List α) :
    occ a (l₁ ++ l₂) = occ a l₁ + occ a l₂ := by
  induction l₁ with
  | nil => simp [occ]
  | cons b l ih => simp [occ, ih, Nat.add_assoc]

theorem occ_filter {α : Type} [DecidableEq α] (p : α → Bool) (a : α) (l : List α) :
    occ a (l.filter p) = if p a = true then occ a l else 0 := by
  induction l with
  | nil => simp [occ]
  | cons b l ih =>
    by_cases hb : p b = true
    · rw [List.filter_cons_of_pos hb]
      by_cases hba : b = a
      · subst hba
        simp [occ, ih, hb]
      · simp [occ, ih, hba]
    · rw [List.filter_cons_of_neg hb]
      by_cases hba : b = a
      · subst hba
        simp [occ, ih, hb]
      · simp [occ, ih, hba]

theorem occ_eq_zero {α : Type} [DecidableEq α] (a : α) (l : List α)
    (h : a ∉ l) : occ a l = 0 := by
  induction l with
  | nil => rfl
  | cons b t ih =>
    simp only [List.mem_cons, not_or] at h
    have hba : b ≠ a := fun e => h.1 e.symm
    simp [occ, hba, ih h.2]

theorem list_any_false {α : Type} (p : α → Bool) (l : List α)
    (h : l.any p = false) (a : α) (ha : a ∈ l) : p a = false := by
  by_contra hne
  have hpa : p a = true := by
    cases hval : p a
    · exact absurd hval hne
    · rfl
  have : l.any p = true := List.any_eq_true.mpr ⟨a, ha, hpa⟩
  rw [h] at this
  exact Bool.false_ne_true this

theorem mapOrFail_isSome {α β : Type} (f : α → Option β) (l : List α)
    (bs : List β) (h : mapOrFail f l = some bs) :
    ∀ a ∈ l, (f a).isSome = true := by
  induction l generalizing bs with
  | nil => intro a ha; cases ha
  | cons x t ih =>
    intro a ha
    unfold mapOrFail at h
    cases hfx : f x with
    | none => rw [hfx] at h; simp at h
    | some b =>
      cases hmt : mapOrFail f t with
      | none => rw [hfx, hmt] at h; simp at h
      | some bs2 =>
        rcases List.mem_cons.mp ha with rfl | hat
        · simp [hfx]
        · exact ih bs2 hmt a hat

theorem mapOrFail_mem {α β : Type} (f : α → Option β) (l : List α)
    (bs : List β) (h : mapOrFail f l = some bs) (b : β) :
    b ∈ bs ↔ ∃ a ∈ l, f a = some b := by
  induction l generalizing bs with
  | nil =>
    unfold mapOrFail at h
    simp at h
    subst h
    simp
  | cons x t ih =>
    unfold mapOrFail at h
    cases hfx : f x with
    | none => rw [hfx] at h; simp at h
    | some c =>
      cases hmt : mapOrFail f t with
      | none => rw [hfx, hmt] at h; simp at h
      | some bs2 =>
        rw [hfx, hmt] at h
        simp only at h
        injection h with h
        subst h
        constructor
        · intro hmem
          rcases List.mem_cons.mp hmem with rfl | hb2
          · exact ⟨x, List.mem_cons_self x t, hfx⟩
          · rcases (ih bs2 hmt).mp hb2 with ⟨a, hat, hfa⟩
            exact ⟨a, List.mem_cons_of_mem x hat, hfa⟩
        · rintro ⟨a, hat, hfa⟩
          rcases List.mem_cons.mp hat with rfl | hat2
          · rw [hfx] at hfa
            injection hfa with hfa
            subst hfa
            exact List.mem_cons_self _ _
          · exact List.mem_cons_of_mem c ((ih bs2 hmt).mpr ⟨a, hat2, hfa⟩)

theorem isPre_iff {α : Type} [DecidableEq α] (p s : List α) :
    isPre p s = true ↔ ∃ t, s = p ++ t := by
  induction p generalizing s with
  | nil =>
    simp [isPre]
  | cons a as ih =>
    cases s with
    | nil => simp [isPre]
    | cons b bs =>
      simp only [isPre, Bool.and_eq_true, decide_eq_true_eq, ih,
        List.cons_append, List.cons.injEq]
      constructor
      · rintro ⟨rfl, t, rfl⟩
        exact ⟨t, rfl, rfl⟩
      · rintro ⟨t, rfl, rfl⟩
        exact ⟨rfl, t, rfl⟩

theorem listContains_iff {α : Type} [DecidableEq α] (p s : List α) :
    listContains p s = true ↔ ∃ l r, s = l ++ p ++ r := by
  induction s with
  | nil =>
    simp only [listContains, isPre_iff]
    constructor
    · rintro ⟨t, ht⟩
      exact ⟨[], t, by simpa using ht⟩
    · rintro ⟨l, r, hr⟩
      have hl : l ++ p ++ r = [] := hr.symm
      rw [List.append_eq_nil] at hl
      rcases hl with ⟨hl2, hr2⟩
      rw [List.append_eq_nil] at hl2
      exact ⟨[], by simp [hl2.2, hr2]⟩
  | cons c cs ih =>
    simp only [listContains, Bool.or_eq_true, isPre_iff, ih]
    constructor
    · rintro (⟨t, ht⟩ | ⟨l, r, hr⟩)
      · exact ⟨[], t, by simpa using ht⟩
      · exact ⟨c :: l, r, by simp [hr]⟩
    · rintro ⟨l, r, hr⟩
      cases l with
      | nil => exact Or.inl ⟨r, by simpa using hr⟩
      | cons x xs =>
        simp only [List.cons_append, List.cons.injEq] at hr
        exact Or.inr ⟨xs, r, hr.2⟩

theorem strContainsSub_iff (s pat : String) :
    strContainsSub s pat = true ↔ ∃ l r, s.data = l ++ pat.data ++ r := by
  unfold strContainsSub
  exact listContains_iff pat.data s.data

theorem seg2In_parts (xs : List String) (d : DirRec)
    (h : seg2In xs d = true) : 3 ≤ numParts d.path := by
  unfold seg2In at h
  cases hseg : splitSeg d.path 2 with
  | none => rw [hseg] at h; simp at h
  | some u =>
    unfold splitSeg at hseg
    rcases List.get?_eq_some.mp hseg with ⟨hlt, _⟩
    unfold numParts
    omega

/-! ## Inversion lemmas for the stage runs -/

theorem clusters_df_written (tags : List String) (sc : List Cluster)
    (dstC : Option (List Cluster)) (ow : Bool)
    (cdf : List Cluster × Option (List Cluster))
    (h : prune_clusters_df tags sc dstC ow = .ok cdf)
    (l : List Cluster) (hw : cdf.2 = some l) : cdf.1 = l := by
  unfold prune_clusters_df at h
  split at h
  · split at h
    · injection h with h
      subst h
      simp at hw
    · split at h
      · simp at h
      · rename_i kept hk
        injection h with h
        subst h
        simp at hw
        subst hw
        rfl
  · split at h
    · simp at h
    · rename_i kept hk
      injection h with h
      subst h
      simp at hw
      subst hw
      rfl

theorem clusters_run_written (tags : List String) (sc : List Cluster)
    (dc : Option (List Cluster)) (sa : Option (List Acl)) (da : Option (List Acl))
    (ow : Bool) (rc : ClustersResult) (lc : List Cluster) (lca : List Acl)
    (h : prune_clusters_run tags (some sc) dc sa da ow = .ok rc)
    (hwc : rc.written_clusters = some lc)
    (hwa : rc.written_acls = some lca) :
    rc.copied_clusters = lc.map (fun c => c.cluster_id) ∧
    lca.all (aclKeep rc.copied_clusters) = true := by
  simp only [prune_clusters_run] at h
  split at h
  · simp at h
  · rename_i cdf hdf
    split at h
    · injection h with h
      subst h
      simp at hwa
    · split at h
      · simp at h
      · rename_i acls hacls
        injection h with h
        subst h
        dsimp only at hwc hwa ⊢
        have h1 : cdf.1 = lc := clusters_df_written tags sc dc ow cdf hdf lc hwc
        subst h1
        constructor
        · rfl
        · injection hwa with hwa
          subst hwa
          rw [List.all_eq_true]
          intro a ha
          exact (List.mem_filter.mp ha).2

theorem clusters_run_skip (tags : List String) (sc dc : List Cluster)
    (sa : Option (List Acl)) (da : Option (List Acl)) (rc : ClustersResult)
    (h : prune_clusters_run tags (some sc) (some dc) sa da false = .ok rc) :
    rc.copied_clusters = dc.map (fun c => c.cluster_id) ∧
    rc.written_clusters = none := by
  have hdf : prune_clusters_df tags sc (some dc) false = Except.ok (dc, none) := rfl
  simp only [prune_clusters_run, hdf] at h
  split at h
  · injection h with h
    subst h
    exact ⟨rfl, rfl⟩
  · split at h
    · simp at h
    · injection h with h
      subst h
      exact ⟨rfl, rfl⟩

theorem jobs_df_written (tags clusters : List String) (sj : List Job)
    (dstJ : Option (List Job)) (ow : Bool) (jdf : List Job × Option (List Job))
    (h : prune_jobs_df tags clusters sj dstJ ow = .ok jdf)
    (l : List Job) (hw : jdf.2 = some l) : jdf.1 = l := by
  unfold prune_jobs_df at h
  split at h
  · split at h
    · injection h with h
      subst h
      simp at hw
    · split at h
      · simp at h
      · rename_i kept hk
        injection h with h
        subst h
        simp at hw
        subst hw
        rfl
  · split at h
    · simp at h
    · rename_i kept hk
      injection h with h
      subst h
      simp at hw
      subst hw
      rfl

theorem jobs_run_written (tags clusters : List String) (sj : List Job)
    (dj : Option (List Job)) (sa : Option (List Acl)) (da : Option (List Acl))
    (ow : Bool) (rj : JobsResult) (lj : List Job) (lja : List Acl)
    (h : prune_jobs_run tags clusters (some sj) dj sa da ow = .ok rj)
    (hwj : rj.written_jobs = some lj)
    (hwa : rj.written_acls = some lja) :
    lja.all (aclKeep (lj.map (fun j => toString j.job_id))) = true := by
  simp only [prune_jobs_run] at h
  split at h
  · simp at h
  · rename_i jdf hdf
    split at h
    · injection h with h
      subst h
      simp at hwa
    · split at h
      · simp at h
      · rename_i acls hacls
        injection h with h
        subst h
        dsimp only at hwj hwa
        have h1 : jdf.1 = lj := jobs_df_written tags clusters sj dj ow jdf hdf lj hwj
        subst h1
        injection hwa with hwa
        subst hwa
        rw [List.all_eq_true]
        intro a ha
        exact (List.mem_filter.mp ha).2

theorem groupsCollect_mem (tags : List String) (srcGroups : List Group)
    (dns : List String) (us : List String)
    (h : groupsCollect tags srcGroups dns = .ok us) :
    ∀ u ∈ us, ∃ n ∈ dns,
      (tags.any fun t => strContainsSub n (hyphenate t)) = true ∧
      ∃ g ∈ srcGroups, g.name = n ∧ u ∈ g.members := by
  induction dns generalizing us with
  | nil =>
    unfold groupsCollect at h
    injection h with h
    subst h
    intro u hu
    exact absurd hu (List.not_mem_nil u)
  | cons n rest ih =>
    unfold groupsCollect at h
    split at h
    · rename_i hmatch
      split at h
      · simp at h
      · rename_i g hg
        split at h
        · simp at h
        · rename_i us2 hrec
          injection h with h
          subst h
          intro u hu
          rcases List.mem_append.mp hu with hum | hum
          · have hgp : g.name = n := by
              have := List.find?_some hg
              simpa using this
            exact ⟨n, List.mem_cons_self n rest, hmatch,
              g, List.mem_of_find?_eq_some hg, hgp, hum⟩
          · rcases ih us2 hrec u hum with ⟨n2, hn2, hm2, g2, hg2, hname2, hu2⟩
            exact ⟨n2, List.mem_cons_of_mem n hn2, hm2, g2, hg2, hname2, hu2⟩
    · intro u hu
      rcases ih us h u hu with ⟨n2, hn2, hm2, rest2⟩
      exact ⟨n2, List.mem_cons_of_mem n hn2, hm2, rest2⟩

theorem meta_run_ok_inv (tags users : List String) (src : MetaSrc) (dst : MetaDst)
    (ow : Bool) (r : MetaResult)
    (hskip : metaSkipAll dst ow = false)
    (h : prune_workspace_metadata_run tags users src dst ow = .ok r) :
    ∃ dirs ws ts,
      src.user_dirs = some dirs ∧ src.user_ws = some ws ∧
      mapOrFail underscoreTok tags = some ts ∧
      r.all_dirs = metaAllDirs users ts tags dirs ∧
      r.copied_dirs = r.all_dirs.map (fun d => d.path) ∧
      r.dir_ids = r.all_dirs.map (fun d => toString d.object_id) ∧
      r.ws_kept = metaWsKept r.copied_dirs ws ∧
      r.file_ids = r.ws_kept.map (fun w => toString w.object_id) ∧
      r.written_user_dirs = (if dst.user_dirs.isSome = true ∧ ow = false then none
        else some (metaTopLevel dirs ++ r.all_dirs)) ∧
      r.written_user_ws = (if dst.user_ws.isSome = true ∧ ow = false then none
        else some r.ws_kept) ∧
      metaAclOut (dst.dir_acls.isSome && !ow) src.dir_acls r.dir_ids
        = .ok r.written_dir_acls ∧
      metaAclOut (dst.obj_acls.isSome && !ow) src.obj_acls r.file_ids
        = .ok r.written_obj_acls ∧
      metaLibOut (dst.libraries.isSome && !ow) src.libraries r.copied_dirs
        = .ok r.written_libraries := by
  unfold prune_workspace_metadata_run at h
  split at h
  · rename_i hcond
    rw [hskip] at hcond
    exact absurd hcond (by simp)
  · split at h
    · simp at h
    · rename_i dirs hdirs
      split at h
      · simp at h
      · split at h
        · simp at h
        · split at h
          · simp at h
          · rename_i ts hts
            split at h
            · simp at h
            · split at h
              · simp at h
              · rename_i ws hws
                split at h
                · simp at h
                · rename_i wda hwda
                  split at h
                  · simp at h
                  · rename_i woa hwoa
                    split at h
                    · simp at h
                    · rename_i wl hwl
                      injection h with h
                      subst h
                      exact ⟨dirs, ws, ts, hdirs, hws, hts, rfl, rfl, rfl, rfl,
                        rfl, rfl, rfl, hwda, hwoa, hwl⟩

theorem cond2_imp_hasCT (tags : List String) (j : Job)
    (h : jobCond2 tags j = true) : jobHasCT j = true := by
  unfold jobCond2 at h
  unfold jobHasCT
  cases hnc : j.settings.new_cluster with
  | none => simp [hnc] at h
  | some nc =>
    simp only [hnc] at h ⊢
    cases hct : nc.custom_tags with
    | none => simp [hct] at h
    | some ct => simp [hct]

theorem aclKeep_map_elim {β : Type} (f : β → String) (es : List β) (a : Acl)
    (h : aclKeep (es.map f) a = true) :
    ∃ e ∈ es, splitSeg a.object_id 2 = some (f e) := by
  unfold aclKeep at h
  cases hseg : splitSeg a.object_id 2 with
  | none => simp [hseg] at h
  | some s =>
    simp only [hseg, decide_eq_true_eq] at h
    rcases List.mem_map.mp h with ⟨e, he, rfl⟩
    exact ⟨e, he, rfl⟩

/-! ## Claim theorems -/

/-- Claim C1, counterexample: on a job whose existing_cluster_id is in the
cluster keep-set AND whose embedded new-cluster tag is requested, the job
filter (lines 160-164, pd.concat of jobs_existing and jobs_new) writes the
record twice, refuting that each kept job is written exactly once. -/
theorem c1_counterexample :
    prune_jobs_select ["team_alpha"] ["c1"] [dupJob] = Except.ok [dupJob, dupJob] ∧
    occ dupJob [dupJob, dupJob] = 2 := ⟨rfl, by decide⟩

/-- Claim C1, amended: when the job filter runs (not skipped, no pandas
column error), a job record appears in the output iff its
settings.existing_cluster_id is in the cluster keep-set or its
settings.new_cluster.custom_tags.z_team is a requested tag; but its
multiplicity in the output is one copy per satisfied condition, so a job
satisfying both conditions is written twice, not once. -/
theorem c1_job_keep_and_multiplicity (tags clusters : List String)
    (js out : List Job) (j : Job)
    (h : prune_jobs_select tags clusters js = .ok out) :
    (j ∈ out ↔ j ∈ js ∧ (jobCond1 clusters j = true ∨ jobCond2 tags j = true)) ∧
    occ j out = (if jobCond1 clusters j = true then occ j js else 0)
      + (if jobCond2 tags j = true then occ j js else 0) := by
  unfold prune_jobs_select at h
  split at h
  · simp at h
  · split at h
    · simp at h
    · split at h
      · split at h
        · simp at h
        · injection h with h
          subst h
          constructor
          · simp only [List.mem_append, List.mem_filter]
            constructor
            · rintro (⟨hm, hc⟩ | ⟨hm, hc⟩)
              · exact ⟨hm, Or.inl hc⟩
              · exact ⟨hm, Or.inr hc⟩
            · rintro ⟨hm, hc | hc⟩
              · exact Or.inl ⟨hm, hc⟩
              · exact Or.inr ⟨hm, hc⟩
          · rw [occ_append, occ_filter, occ_filter]
      · rename_i hct
        injection h with h
        subst h
        have hctf : List.any js jobHasCT = false := by
          cases hval : jobsHasCustomTagsCol js
          · exact hval
          · exact absurd hval hct
        constructor
        · simp only [List.mem_filter]
          constructor
          · rintro ⟨hm, hc⟩
            exact ⟨hm, Or.inl hc⟩
          · rintro ⟨hm, hc | hc⟩
            · exact ⟨hm, hc⟩
            · have h2 : jobHasCT j = true := cond2_imp_hasCT tags j hc
              have h3 : jobHasCT j = false := list_any_false jobHasCT js hctf j hm
              rw [h2] at h3
              exact absurd h3 (by simp)
        · rw [occ_filter]
          by_cases hc2 : jobCond2 tags j = true
          · have hnm : j ∉ js := by
              intro hm
              have h2 : jobHasCT j = true := cond2_imp_hasCT tags j hc2
              have h3 : jobHasCT j = false := list_any_false jobHasCT js hctf j hm
              rw [h2] at h3
              exact absurd h3 (by simp)
            rw [occ_eq_zero j js hnm]
            simp
          · simp [hc2]

/-- Claim C1, witness: the amended theorem applied to the double-matching
job above. -/
theorem c1_witness :
    (dupJob ∈ [dupJob, dupJob] ↔ dupJob ∈ [dupJob] ∧
      (jobCond1 ["c1"] dupJob = true ∨ jobCond2 ["team_alpha"] dupJob = true)) ∧
    occ dupJob [dupJob, dupJob] =
      (if jobCond1 ["c1"] dupJob = true then occ dupJob [dupJob] else 0)
      + (if jobCond2 ["team_alpha"] dupJob = true then occ dupJob [dupJob] else 0) :=
  c1_job_keep_and_multiplicity ["team_alpha"] ["c1"] [dupJob] [dupJob, dupJob]
    dupJob rfl

/-- Claim C5, counterexample: on a file whose only cluster lacks
custom_tags, the custom_tags column does not exist, so line 129 raises
AttributeError instead of silently excluding the record. -/
theorem c5_counterexample :
    prune_clusters_filter ["team_alpha"] [⟨"c1", none⟩]
      = Except.error "AttributeError: custom_tags" := rfl

/-- Claim C5, amended: when the cluster filter evaluates without error (some
record in the file carries custom_tags and some carries z_team), every
cluster it writes has a custom_tags.z_team value in the requested tag set,
and a record lacking custom_tags or z_team is excluded; when no record
carries the fields the stage instead raises AttributeError. -/
theorem c5_cluster_tag_membership (tags : List String) (cs out : List Cluster)
    (h : prune_clusters_filter tags cs = .ok out) :
    (∀ c ∈ out, ∃ m v, c.custom_tags = some m ∧ m.z_team = some v ∧ v ∈ tags) ∧
    (∀ c ∈ cs, c.custom_tags = none → c ∉ out) ∧
    (∀ c ∈ cs, ∀ m, c.custom_tags = some m → m.z_team = none → c ∉ out) := by
  unfold prune_clusters_filter at h
  split at h
  · simp at h
  · split at h
    · simp at h
    · injection h with h
      subst h
      refine ⟨?_, ?_, ?_⟩
      · intro c hc
        rcases List.mem_filter.mp hc with ⟨hm, hk⟩
        unfold clusterKeep at hk
        cases hct : c.custom_tags with
        | none => simp [hct] at hk
        | some m =>
          simp only [hct] at hk
          cases hz : m.z_team with
          | none => simp [hz] at hk
          | some v =>
            simp only [hz, decide_eq_true_eq] at hk
            exact ⟨m, v, rfl, hz, hk⟩
      · intro c hc hnone hmem
        have hk := (List.mem_filter.mp hmem).2
        unfold clusterKeep at hk
        simp [hnone] at hk
      · intro c hc m hm hz hmem
        have hk := (List.mem_filter.mp hmem).2
        unfold clusterKeep at hk
        simp [hm, hz] at hk

/-- Claim C5, witness: the amended theorem applied to a two-record file
where the tagged record is kept and the untagged one is dropped without an
error. -/
theorem c5_witness :
    (∀ c ∈ [taggedCluster], ∃ m v, c.custom_tags = some m ∧ m.z_team = some v ∧
      v ∈ ["team_alpha"]) ∧
    (∀ c ∈ [taggedCluster, (⟨"c2", none⟩ : Cluster)], c.custom_tags = none →
      c ∉ [taggedCluster]) ∧
    (∀ c ∈ [taggedCluster, (⟨"c2", none⟩ : Cluster)], ∀ m,
      c.custom_tags = some m → m.z_team = none → c ∉ [taggedCluster]) :=
  c5_cluster_tag_membership ["team_alpha"] [taggedCluster, ⟨"c2", none⟩]
    [taggedCluster] rfl

/-- Claim C2, counterexample: for tag team_alpha the directory
/Workspace-independent path /teams/team-alpha has third segment equal to
the tag with underscores replaced by hyphens, so the claim requires it to
be kept; line 279 only matches tags_short + tags = [alpha, team_alpha], so
the code drops it (all_dirs and copied_dirs are empty). -/
theorem c2_counterexample :
    prune_workspace_metadata_run ["team_alpha"] []
      ⟨some [⟨"/Users/bob", 1⟩, ⟨"/teams/team-alpha", 2⟩], some [], some [],
       some [], some []⟩
      ⟨none, none, some [], some [], some []⟩ false
      = Except.ok ⟨[], [], [], [], [], some [], some [], none, none, none⟩ ∧
    splitSeg "/teams/team-alpha" 1 = some "teams" ∧
    splitSeg "/teams/team-alpha" 2 = some (hyphenate "team_alpha") :=
  ⟨rfl, rfl, rfl⟩

/-- Claim C2, amended: a directory whose second path segment is teams enters
the directory keep-set (all_dirs, line 280) iff its third segment equals a
requested tag or equals the token between the first and second underscore
of a requested tag (t.split(underscore)[1]); the
underscores-to-hyphens form is never matched, and for tags with more than
one underscore the comparison token is not the full team_-stripped
remainder. -/
theorem c2_team_dir_match (tags users : List String) (src : MetaSrc)
    (dst : MetaDst) (ow : Bool) (r : MetaResult) (dirs : List DirRec) (d : DirRec)
    (hskip : metaSkipAll dst ow = false)
    (h : prune_workspace_metadata_run tags users src dst ow = .ok r)
    (hdirs : src.user_dirs = some dirs)
    (hteam : splitSeg d.path 1 = some "teams") :
    d ∈ r.all_dirs ↔ d ∈ dirs ∧
      ∃ t ∈ tags, (splitSeg d.path 2 = some t ∨ splitSeg d.path 2 = underscoreTok t) := by
  rcases meta_run_ok_inv tags users src dst ow r hskip h with
    ⟨dirs2, ws, ts, hd2, hws, hts, hall, hrest⟩
  rw [hdirs] at hd2
  injection hd2 with hd2
  subst hd2
  rw [hall]
  unfold metaAllDirs metaUserDirs metaTeamDirs
  simp only [List.mem_append, List.mem_filter]
  constructor
  · rintro (⟨⟨hm, hu⟩, _⟩ | ⟨⟨hm, _⟩, hs⟩)
    · unfold userDirSel at hu
      simp only [decide_eq_true_eq] at hu
      rw [hteam] at hu
      exact absurd hu (by decide)
    · unfold seg2In at hs
      cases hseg : splitSeg d.path 2 with
      | none => simp [hseg] at hs
      | some u =>
        simp only [hseg, decide_eq_true_eq] at hs
        refine ⟨hm, ?_⟩
        rcases List.mem_append.mp hs with hu | hu
        · rcases (mapOrFail_mem underscoreTok tags ts hts u).mp hu with ⟨t, ht, htok⟩
          exact ⟨t, ht, Or.inr htok.symm⟩
        · exact ⟨u, hu, Or.inl rfl⟩
  · rintro ⟨hm, t, ht, hcase⟩
    right
    refine ⟨⟨hm, ?_⟩, ?_⟩
    · unfold teamDirSel
      simp only [decide_eq_true_eq]
      exact hteam
    · unfold seg2In
      rcases hcase with hseg | hseg
      · simp only [hseg, decide_eq_true_eq]
        exact List.mem_append.mpr (Or.inr ht)
      · have hsome : (underscoreTok t).isSome = true :=
          mapOrFail_isSome underscoreTok tags ts hts t ht
        cases htok : underscoreTok t with
        | none => rw [htok] at hsome; simp at hsome
        | some u =>
          rw [htok] at hseg
          simp only [hseg, decide_eq_true_eq]
          exact List.mem_append.mpr
            (Or.inl ((mapOrFail_mem underscoreTok tags ts hts u).mpr ⟨t, ht, htok⟩))

/-- Claim C2, witness: the amended theorem applied to the c3Src tree, where
/teams/alpha is kept because alpha is the second underscore token of
team_alpha. -/
theorem c2_witness :
    (⟨"/teams/alpha", 2⟩ : DirRec) ∈ c3Meta.all_dirs ↔
      (⟨"/teams/alpha", 2⟩ : DirRec) ∈
        [(⟨"/Users/bob", 1⟩ : DirRec), ⟨"/teams/alpha", 2⟩] ∧
      ∃ t ∈ ["team_alpha"],
        (splitSeg "/teams/alpha" 2 = some t ∨
         splitSeg "/teams/alpha" 2 = underscoreTok t) :=
  c2_team_dir_match ["team_alpha"] [] c3Src c3Dst false c3Meta
    [⟨"/Users/bob", 1⟩, ⟨"/teams/alpha", 2⟩] ⟨"/teams/alpha", 2⟩
    rfl rfl rfl rfl

/-- Claim C3, counterexample: two skipped stages that do not derive their
keep-set from the existing destination contents.  First, destination
user_dirs.log exists (with zero records) and overwrite is off, yet the
metadata stage still re-filters the source tree: copied_dirs comes out as
the source-derived [/teams/alpha], not as anything derived from the
existing destination file; only the write of user_dirs.log is skipped.
Second, the groups stage with an existing destination groups directory
re-applies the tag filter to the destination listing (other-group is
listed but dropped again) and takes the member userNames from the SOURCE
group files (bob appears only there), and a destination-listed matching
filename with no source counterpart makes the stage raise on open. -/
theorem c3_counterexample :
    prune_workspace_metadata_run ["team_alpha"] [] c3Src c3Dst false
      = Except.ok c3Meta ∧
    c3Dst.user_dirs = some [] ∧
    c3Meta.copied_dirs = ["/teams/alpha"] ∧
    c3Meta.written_user_dirs = none ∧
    prune_groups_run ["team_alpha"]
      [⟨"team-alpha-admins", ["bob"]⟩, ⟨"other-group", ["eve"]⟩]
      (some ["team-alpha-admins", "other-group"]) false = Except.ok ["bob"] ∧
    prune_groups_run ["team_alpha"] [] (some ["team-alpha-admins"]) false
      = Except.error "read group file: file missing" :=
  ⟨rfl, rfl, rfl, rfl, rfl, rfl⟩

/-- Claim C3, amended: the clusters and jobs stages do behave as claimed:
with an existing destination file and overwrite off, no re-filtering runs
and the downstream keep-set comes from the destination contents (the
cluster_id column of the destination clusters.log; the str(job_id) list of
the destination jobs.log, against which any job-ACL output written this run
is filtered).  The workspace-metadata stage does not: unless all five
destination metadata files exist (in which case the stage is skipped
entirely), it always re-derives dirs_kept and dir_ids_kept from the source
user_dirs.log, even when the destination user_dirs.log exists — only the
write is skipped.  The groups stage also does not: with an existing
destination groups directory it re-applies the tag filter to the
destination directory's filename listing, and every userName it keeps is
read from a source group file with a listed, tag-matching name, so
users_kept comes from the destination listing combined with source
contents, never from the destination files' contents. -/
theorem c3_skip_keep_sets (tags users clusters : List String)
    (sc dc : List Cluster) (sa da : Option (List Acl)) (rc : ClustersResult)
    (sj djs : List Job) (sacls dja : Option (List Acl)) (rj : JobsResult)
    (srcGroups : List Group) (dns us : List String)
    (src : MetaSrc) (dst : MetaDst) (dirs : List DirRec) (r : MetaResult) :
    (prune_clusters_run tags (some sc) (some dc) sa da false = .ok rc →
      rc.copied_clusters = dc.map (fun c => c.cluster_id) ∧
      rc.written_clusters = none) ∧
    (prune_jobs_run tags clusters (some sj) (some djs) sacls dja false = .ok rj →
      rj.written_jobs = none ∧
      (rj.written_acls = none ∨
        ∃ acls, sacls = some acls ∧
          rj.written_acls = some (acls.filter
            (aclKeep (djs.map (fun j => toString j.job_id)))))) ∧
    (prune_groups_run tags srcGroups (some dns) false = .ok us →
      ∀ u ∈ us, ∃ n ∈ dns,
        (tags.any fun t => strContainsSub n (hyphenate t)) = true ∧
        ∃ g ∈ srcGroups, g.name = n ∧ u ∈ g.members) ∧
    (metaSkipAll dst false = false → dst.user_dirs.isSome = true →
      src.user_dirs = some dirs →
      prune_workspace_metadata_run tags users src dst false = .ok r →
      r.written_user_dirs = none ∧
      ∃ ts, mapOrFail underscoreTok tags = some ts ∧
        r.all_dirs = metaAllDirs users ts tags dirs ∧
        r.copied_dirs = r.all_dirs.map (fun d => d.path) ∧
        r.dir_ids = r.all_dirs.map (fun d => toString d.object_id)) := by
  refine ⟨?_, ?_, ?_, ?_⟩
  · intro h
    exact clusters_run_skip tags sc dc sa da rc h
  · intro h
    have hdf : prune_jobs_df tags clusters sj (some djs) false
        = Except.ok (djs, none) := rfl
    simp only [prune_jobs_run, hdf] at h
    split at h
    · injection h with h
      subst h
      exact ⟨rfl, Or.inl rfl⟩
    · cases hsa : sacls with
      | none =>
        rw [hsa] at h
        simp at h
      | some acls =>
        simp only [hsa] at h
        injection h with h
        subst h
        exact ⟨rfl, Or.inr ⟨acls, rfl, rfl⟩⟩
  · intro h
    exact groupsCollect_mem tags srcGroups dns us h
  · intro hskip hdu hdirs h
    rcases meta_run_ok_inv tags users src dst false r hskip h with
      ⟨dirs2, ws, ts, hd2, hws, hts, hall, hcop, hids, hwsk, hfids, hwud, hrest⟩
    rw [hdirs] at hd2
    injection hd2 with hd2
    subst hd2
    constructor
    · rw [hwud]
      simp [hdu]
    · exact ⟨ts, hts, hall, hcop, hids⟩

/-- Claim C3, witness: all four parts of the amended theorem at concrete
inputs: a skip run over an existing clusters.log with one record c9, a
skip run over an existing jobs.log holding the job with id 1 whose ACL is
then kept, a skip run of the groups stage whose kept user bob comes from
the source group file, and the c3Src / c3Dst metadata run. -/
theorem c3_witness :
    (c3Rc.copied_clusters =
        [(⟨"c9", none⟩ : Cluster)].map (fun c => c.cluster_id) ∧
      c3Rc.written_clusters = none) ∧
    ((⟨none, some [⟨"/jobs/1"⟩]⟩ : JobsResult).written_jobs = none ∧
      ((⟨none, some [⟨"/jobs/1"⟩]⟩ : JobsResult).written_acls = none ∨
        ∃ acls, some [(⟨"/jobs/1"⟩ : Acl)] = some acls ∧
          (⟨none, some [⟨"/jobs/1"⟩]⟩ : JobsResult).written_acls
            = some (acls.filter
              (aclKeep ([dupJob].map (fun j => toString j.job_id)))))) ∧
    (∀ u ∈ ["bob"], ∃ n ∈ ["team-alpha-admins", "other-group"],
      (["team_alpha"].any fun t => strContainsSub n (hyphenate t)) = true ∧
      ∃ g ∈ [(⟨"team-alpha-admins", ["bob"]⟩ : Group), ⟨"other-group", ["eve"]⟩],
        g.name = n ∧ u ∈ g.members) ∧
    (c3Meta.written_user_dirs = none ∧
      ∃ ts, mapOrFail underscoreTok ["team_alpha"] = some ts ∧
        c3Meta.all_dirs = metaAllDirs [] ts ["team_alpha"]
          [⟨"/Users/bob", 1⟩, ⟨"/teams/alpha", 2⟩] ∧
        c3Meta.copied_dirs = c3Meta.all_dirs.map (fun d => d.path) ∧
        c3Meta.dir_ids = c3Meta.all_dirs.map (fun d => toString d.object_id)) :=
  ⟨(c3_skip_keep_sets ["team_alpha"] [] [] [] [⟨"c9", none⟩] none (some [])
      c3Rc [] [dupJob] (some [⟨"/jobs/1"⟩]) none ⟨none, some [⟨"/jobs/1"⟩]⟩
      [⟨"team-alpha-admins", ["bob"]⟩, ⟨"other-group", ["eve"]⟩]
      ["team-alpha-admins", "other-group"] ["bob"]
      c3Src c3Dst [⟨"/Users/bob", 1⟩, ⟨"/teams/alpha", 2⟩] c3Meta).1 rfl,
   (c3_skip_keep_sets ["team_alpha"] [] [] [] [⟨"c9", none⟩] none (some [])
      c3Rc [] [dupJob] (some [⟨"/jobs/1"⟩]) none ⟨none, some [⟨"/jobs/1"⟩]⟩
      [⟨"team-alpha-admins", ["bob"]⟩, ⟨"other-group", ["eve"]⟩]
      ["team-alpha-admins", "other-group"] ["bob"]
      c3Src c3Dst [⟨"/Users/bob", 1⟩, ⟨"/teams/alpha", 2⟩] c3Meta).2.1 rfl,
   (c3_skip_keep_sets ["team_alpha"] [] [] [] [⟨"c9", none⟩] none (some [])
      c3Rc [] [dupJob] (some [⟨"/jobs/1"⟩]) none ⟨none, some [⟨"/jobs/1"⟩]⟩
      [⟨"team-alpha-admins", ["bob"]⟩, ⟨"other-group", ["eve"]⟩]
      ["team-alpha-admins", "other-group"] ["bob"]
      c3Src c3Dst [⟨"/Users/bob", 1⟩, ⟨"/teams/alpha", 2⟩] c3Meta).2.2.1 rfl,
   (c3_skip_keep_sets ["team_alpha"] [] [] [] [⟨"c9", none⟩] none (some [])
      c3Rc [] [dupJob] (some [⟨"/jobs/1"⟩]) none ⟨none, some [⟨"/jobs/1"⟩]⟩
      [⟨"team-alpha-admins", ["bob"]⟩, ⟨"other-group", ["eve"]⟩]
      ["team-alpha-admins", "other-group"] ["bob"]
      c3Src c3Dst [⟨"/Users/bob", 1⟩, ⟨"/teams/alpha", 2⟩] c3Meta).2.2.2 rfl rfl rfl rfl⟩

/-- Claim C4: evaluation at the failing inputs.  With libraries.log missing
from the source (and no destination copy), lines 320-328 print the
skipping warning but still execute the else branch, whose
pd.read_json(src_libraries) raises — the run does not continue.  With
user_dirs.log missing, line 271 reads it with no existence check at all
and raises, aborting every remaining metadata stage. -/
theorem c4_missing_file_raises :
    prune_workspace_metadata_run ["team_alpha"] ["bob"]
      ⟨some [⟨"/Users/bob", 1⟩, ⟨"/teams/alpha", 2⟩], some [⟨"/teams/alpha/nb", 3⟩],
       some [⟨"/directories/2"⟩], some [⟨"/notebooks/3"⟩], none⟩
      ⟨none, none, none, none, none⟩ false
      = Except.error "read libraries.log: file missing" ∧
    prune_workspace_metadata_run ["team_alpha"] []
      ⟨none, some [], some [], some [], some []⟩
      ⟨none, none, none, none, none⟩ false
      = Except.error "read user_dirs.log: file missing" :=
  ⟨rfl, rfl⟩

/-- Claim C6: referential integrity of the ACL outputs.  Whenever a stage
wrote its entity file and its ACL file this run (which is the case for
every stage of a fresh-destination or overwrite run), each written ACL
record's object_id has a third "/"-separated segment equal to an identifier
of a record in the corresponding written entity file: cluster_id for
acl_clusters, str(job_id) for acl_jobs, str(object_id) of a written
directory for acl_directories, str(object_id) of a written workspace
object for acl_notebooks. -/
theorem c6_acl_referential_integrity
    (tags users : List String)
    (sc : List Cluster) (dc : Option (List Cluster)) (sca da : Option (List Acl))
    (ow : Bool) (sj : List Job) (dj : Option (List Job)) (sja dja : Option (List Acl))
    (src : MetaSrc) (dst : MetaDst)
    (rc : ClustersResult) (rj : JobsResult) (rm : MetaResult)
    (lc : List Cluster) (lca : List Acl) (lj : List Job) (lja : List Acl)
    (ld : List DirRec) (lda : List Acl) (lw : List WsObj) (loa : List Acl)
    (h1 : prune_clusters_run tags (some sc) dc sca da ow = .ok rc)
    (hw1 : rc.written_clusters = some lc) (hw2 : rc.written_acls = some lca)
    (h2 : prune_jobs_run tags rc.copied_clusters (some sj) dj sja dja ow = .ok rj)
    (hw3 : rj.written_jobs = some lj) (hw4 : rj.written_acls = some lja)
    (hskip : metaSkipAll dst ow = false)
    (h3 : prune_workspace_metadata_run tags users src dst ow = .ok rm)
    (hw5 : rm.written_user_dirs = some ld) (hw6 : rm.written_dir_acls = some lda)
    (hw7 : rm.written_user_ws = some lw) (hw8 : rm.written_obj_acls = some loa) :
    (∀ a ∈ lca, ∃ c ∈ lc, splitSeg a.object_id 2 = some c.cluster_id) ∧
    (∀ a ∈ lja, ∃ j ∈ lj, splitSeg a.object_id 2 = some (toString j.job_id)) ∧
    (∀ a ∈ lda, ∃ d ∈ ld, splitSeg a.object_id 2 = some (toString d.object_id)) ∧
    (∀ a ∈ loa, ∃ w ∈ lw, splitSeg a.object_id 2 = some (toString w.object_id)) := by
  rcases clusters_run_written tags sc dc sca da ow rc lc lca h1 hw1 hw2 with
    ⟨hcop, hall⟩
  have hjobs := jobs_run_written tags rc.copied_clusters sj dj sja dja ow rj lj
    lja h2 hw3 hw4
  rcases meta_run_ok_inv tags users src dst ow rm hskip h3 with
    ⟨dirs, ws, ts, hdirs, hws, hts, hallm, hcopm, hids, hwsk, hfids, hwud, hwuw,
     hda, hoa, hlib⟩
  refine ⟨?_, ?_, ?_, ?_⟩
  · intro a ha
    have hk := List.all_eq_true.mp hall a ha
    rw [hcop] at hk
    exact aclKeep_map_elim (fun c => c.cluster_id) lc a hk
  · intro a ha
    have hk := List.all_eq_true.mp hjobs a ha
    exact aclKeep_map_elim (fun j => toString j.job_id) lj a hk
  · intro a ha
    rw [hw6] at hda
    unfold metaAclOut at hda
    split at hda
    · injection hda with hda
      simp at hda
    · split at hda
      · simp at hda
      · rename_i acls hacls
        split at hda
        · simp at hda
        · injection hda with hda
          injection hda with hda
          rw [← hda] at ha
          have hk := (List.mem_filter.mp ha).2
          rw [hids, hallm] at hk
          rcases aclKeep_map_elim (fun d => toString d.object_id)
            (metaAllDirs users ts tags dirs) a hk with ⟨d, hd, hseg⟩
          refine ⟨d, ?_, hseg⟩
          rw [hw5] at hwud
          split at hwud
          · simp at hwud
          · injection hwud with hwud
            rw [hwud]
            rw [hallm] at *
            exact List.mem_append.mpr (Or.inr hd)
  · intro a ha
    rw [hw8] at hoa
    unfold metaAclOut at hoa
    split at hoa
    · injection hoa with hoa
      simp at hoa
    · split at hoa
      · simp at hoa
      · rename_i acls hacls
        split at hoa
        · simp at hoa
        · injection hoa with hoa
          injection hoa with hoa
          rw [← hoa] at ha
          have hk := (List.mem_filter.mp ha).2
          rw [hfids] at hk
          rcases aclKeep_map_elim (fun w => toString w.object_id) rm.ws_kept a hk
            with ⟨w, hw, hseg⟩
          refine ⟨w, ?_, hseg⟩
          rw [hw7] at hwuw
          split at hwuw
          · simp at hwuw
          · injection hwuw with hwuw
            rw [hwuw]
            exact hw

/-- Claim C6, witness: the integrity statement at a concrete fresh run
(tag team_alpha, kept user bob, one record of each kind). -/
theorem c6_witness :
    (∀ a ∈ [(⟨"/clusters/c1"⟩ : Acl)], ∃ c ∈ [taggedCluster],
      splitSeg a.object_id 2 = some c.cluster_id) ∧
    (∀ a ∈ [(⟨"/jobs/1"⟩ : Acl)], ∃ j ∈ [dupJob, dupJob],
      splitSeg a.object_id 2 = some (toString j.job_id)) ∧
    (∀ a ∈ [(⟨"/directories/2"⟩ : Acl)],
      ∃ d ∈ [(⟨"/Users/bob", 1⟩ : DirRec), ⟨"/teams/alpha", 2⟩],
        splitSeg a.object_id 2 = some (toString d.object_id)) ∧
    (∀ a ∈ [(⟨"/notebooks/3"⟩ : Acl)], ∃ w ∈ [(⟨"/teams/alpha/nb", 3⟩ : WsObj)],
      splitSeg a.object_id 2 = some (toString w.object_id)) :=
  c6_acl_referential_integrity ["team_alpha"] ["bob"]
    [taggedCluster] none (some [⟨"/clusters/c1"⟩]) none false
    [dupJob] none (some [⟨"/jobs/1"⟩]) none
    c6Src freshDst c6Rc c6Rj c6Meta
    [taggedCluster] [⟨"/clusters/c1"⟩] [dupJob, dupJob] [⟨"/jobs/1"⟩]
    [⟨"/Users/bob", 1⟩, ⟨"/teams/alpha", 2⟩] [⟨"/directories/2"⟩]
    [⟨"/teams/alpha/nb", 3⟩] [⟨"/notebooks/3"⟩]
    rfl rfl rfl rfl rfl rfl rfl rfl rfl rfl rfl rfl

/-- Claim C7: when the metadata stage runs to completion, a workspace
object survives iff its path with the final segment removed is in
copied_dirs, and (when libraries.log was written this run) a library
record survives iff the same holds for its path; copied_dirs holds exactly
the paths of kept Users/teams directories, each of which has at least three
"/"-separated parts, so no two-segment top-level directory path is in it. -/
theorem c7_parent_containment (tags users : List String) (src : MetaSrc)
    (dst : MetaDst) (ow : Bool) (r : MetaResult) (dirs : List DirRec)
    (ws : List WsObj) (libs : List LibRec) (lout : List LibRec)
    (hskip : metaSkipAll dst ow = false)
    (h : prune_workspace_metadata_run tags users src dst ow = .ok r)
    (hdirs : src.user_dirs = some dirs)
    (hws : src.user_ws = some ws)
    (hlibs : src.libraries = some libs)
    (hl : r.written_libraries = some lout) :
    (∀ w : WsObj, w ∈ r.ws_kept ↔ w ∈ ws ∧ parentPath w.path ∈ r.copied_dirs) ∧
    (∀ l : LibRec, l ∈ lout ↔ l ∈ libs ∧ parentPath l.path ∈ r.copied_dirs) ∧
    (∀ p ∈ r.copied_dirs, 3 ≤ numParts p) ∧
    (∀ p ∈ r.copied_dirs, ∃ d ∈ dirs, d.path = p ∧
      (splitSeg d.path 1 = some "Users" ∨ splitSeg d.path 1 = some "teams")) := by
  rcases meta_run_ok_inv tags users src dst ow r hskip h with
    ⟨dirs2, ws2, ts, hd2, hws2, hts, hall, hcop, hids, hwsk, hfids, hwud, hwuw,
     hda, hoa, hlib⟩
  rw [hdirs] at hd2
  injection hd2 with hd2
  subst hd2
  rw [hws] at hws2
  injection hws2 with hws2
  subst hws2
  refine ⟨?_, ?_, ?_, ?_⟩
  · intro w
    rw [hwsk]
    unfold metaWsKept wsParentKeep
    simp only [List.mem_filter, decide_eq_true_eq]
  · intro l
    rw [hlibs, hl] at hlib
    unfold metaLibOut at hlib
    split at hlib
    · injection hlib with hlib
      simp at hlib
    · dsimp only at hlib
      split at hlib
      · injection hlib with hlib
        simp at hlib
      · injection hlib with hlib
        injection hlib with hlib
        rw [← hlib]
        unfold wsParentKeep
        simp only [List.mem_filter, decide_eq_true_eq]
  · intro p hp
    rw [hcop, hall] at hp
    rcases List.mem_map.mp hp with ⟨d, hd, rfl⟩
    unfold metaAllDirs metaUserDirs metaTeamDirs at hd
    rcases List.mem_append.mp hd with hd | hd
    · exact seg2In_parts users d (List.mem_filter.mp hd).2
    · exact seg2In_parts (ts ++ tags) d (List.mem_filter.mp hd).2
  · intro p hp
    rw [hcop, hall] at hp
    rcases List.mem_map.mp hp with ⟨d, hd, rfl⟩
    unfold metaAllDirs metaUserDirs metaTeamDirs at hd
    rcases List.mem_append.mp hd with hd | hd
    · rcases List.mem_filter.mp hd with ⟨hd0, _⟩
      rcases List.mem_filter.mp hd0 with ⟨hdm, hsel⟩
      refine ⟨d, hdm, rfl, Or.inl ?_⟩
      unfold userDirSel at hsel
      simpa using hsel
    · rcases List.mem_filter.mp hd with ⟨hd0, _⟩
      rcases List.mem_filter.mp hd0 with ⟨hdm, hsel⟩
      refine ⟨d, hdm, rfl, Or.inr ?_⟩
      unfold teamDirSel at hsel
      simpa using hsel

/-- Claim C7, witness: the containment statement at the concrete c6Src
fresh run. -/
theorem c7_witness :
    (∀ w : WsObj, w ∈ c6Meta.ws_kept ↔
      w ∈ [(⟨"/teams/alpha/nb", 3⟩ : WsObj)] ∧
        parentPath w.path ∈ c6Meta.copied_dirs) ∧
    (∀ l : LibRec, l ∈ [(⟨"/teams/alpha/lib1"⟩ : LibRec)] ↔
      l ∈ [(⟨"/teams/alpha/lib1"⟩ : LibRec)] ∧
        parentPath l.path ∈ c6Meta.copied_dirs) ∧
    (∀ p ∈ c6Meta.copied_dirs, 3 ≤ numParts p) ∧
    (∀ p ∈ c6Meta.copied_dirs,
      ∃ d ∈ [(⟨"/Users/bob", 1⟩ : DirRec), ⟨"/teams/alpha", 2⟩], d.path = p ∧
        (splitSeg d.path 1 = some "Users" ∨ splitSeg d.path 1 = some "teams")) :=
  c7_parent_containment ["team_alpha"] ["bob"] c6Src freshDst false c6Meta
    [⟨"/Users/bob", 1⟩, ⟨"/teams/alpha", 2⟩] [⟨"/teams/alpha/nb", 3⟩]
    [⟨"/teams/alpha/lib1"⟩] [⟨"/teams/alpha/lib1"⟩] rfl rfl rfl rfl rfl rfl

/-- Claim C8: evaluation at the failing inputs.  The guard on line 349
tests artifacts/teams instead of artifacts/Users, so with artifacts/teams
absent the user subdirectory alice, although a member of users_kept, is
never copied; and with artifacts/teams present but artifacts/Users absent
the os.walk listing is empty and the stage raises IndexError. -/
theorem c8_users_artifacts_guard_bug :
    prune_artifacts_run ["team_alpha"] ["alice"] none (some ["alice"])
      = Except.ok ⟨[], []⟩ ∧
    prune_artifacts_run ["team_alpha"] ["alice"] (some []) none
      = Except.error "IndexError: list index out of range" :=
  ⟨rfl, rfl⟩

/-- Claim C9: users_kept is exactly the userNames of members of groups
whose filename contains, as a substring, some requested tag with
underscores replaced by hyphens; and the user filter keeps a record iff
its userName is in users_kept — no independent tag check on users. -/
theorem c9_groups_users_keep (tags : List String) (gs : List Group)
    (us : List UserRec) :
    (∀ u : String, u ∈ prune_groups_users tags gs ↔
      ∃ g ∈ gs, groupMatch tags g = true ∧ u ∈ g.members) ∧
    (∀ g : Group, groupMatch tags g = true ↔
      ∃ t ∈ tags, ∃ l1 l2, g.name.data = l1 ++ (hyphenate t).data ++ l2) ∧
    (∀ ur : UserRec, ur ∈ prune_users_filter (prune_groups_users tags gs) us ↔
      ur ∈ us ∧ ur.userName ∈ prune_groups_users tags gs) := by
  refine ⟨?_, ?_, ?_⟩
  · intro u
    unfold prune_groups_users
    constructor
    · intro hu
      rcases List.mem_flatten.mp hu with ⟨ms, hms, hum⟩
      rcases List.mem_map.mp hms with ⟨g, hg, rfl⟩
      rcases List.mem_filter.mp hg with ⟨hgs, hgm⟩
      exact ⟨g, hgs, hgm, hum⟩
    · rintro ⟨g, hgs, hgm, hum⟩
      exact List.mem_flatten.mpr ⟨g.members,
        List.mem_map.mpr ⟨g, List.mem_filter.mpr ⟨hgs, hgm⟩, rfl⟩, hum⟩
  · intro g
    unfold groupMatch
    rw [List.any_eq_true]
    constructor
    · rintro ⟨t, ht, hc⟩
      exact ⟨t, ht, (strContainsSub_iff g.name (hyphenate t)).mp hc⟩
    · rintro ⟨t, ht, hc⟩
      exact ⟨t, ht, (strContainsSub_iff g.name (hyphenate t)).mpr hc⟩
  · intro ur
    unfold prune_users_filter
    simp only [List.mem_filter, decide_eq_true_eq]

/-- Claim C10: both the directory-classification stage (line 278) and the
team-artifact stage (line 343, once the teams directory has an entry)
evaluate t.split(underscore)[1] for every requested tag, so they can only
complete when every tag has at least one underscore; on the underscore-free
tag alpha both stages raise IndexError. -/
theorem c10_underscore_precondition :
    (∀ tags users src dst ow r, metaSkipAll dst ow = false →
      prune_workspace_metadata_run tags users src dst ow = Except.ok r →
      ∀ t ∈ tags, (underscoreTok t).isSome = true) ∧
    (∀ tags users2 ds ud ra, ds ≠ ([] : List String) →
      prune_artifacts_run tags users2 (some ds) ud = Except.ok ra →
      ∀ t ∈ tags, (underscoreTok t).isSome = true) ∧
    prune_workspace_metadata_run ["alpha"] []
      ⟨some [⟨"/Users/bob", 1⟩], some [], some [], some [], some []⟩
      freshDst false
      = Except.error "IndexError: list index out of range" ∧
    prune_artifacts_run ["alpha"] [] (some ["d1"]) (some [])
      = Except.error "IndexError: list index out of range" ∧
    underscoreTok "alpha" = none ∧
    underscoreTok "team_alpha" = some "alpha" := by
  refine ⟨?_, ?_, rfl, rfl, rfl, rfl⟩
  · intro tags users src dst ow r hskip h
    rcases meta_run_ok_inv tags users src dst ow r hskip h with
      ⟨dirs, ws, ts, _, _, hts, _⟩
    exact mapOrFail_isSome underscoreTok tags ts hts
  · intro tags users2 ds ud ra hne h
    unfold prune_artifacts_run at h
    cases ds with
    | nil => exact absurd rfl hne
    | cons d ds2 =>
      cases hmo : mapOrFail underscoreTok tags with
      | none => simp [hmo] at h
      | some ts => exact mapOrFail_isSome underscoreTok tags ts hmo

/-- Claim C10, witness: both general halves applied at concrete succeeding
runs whose tags all carry an underscore. -/
theorem c10_witness :
    (∀ t ∈ ["team_alpha"], (underscoreTok t).isSome = true) ∧
    (∀ t ∈ ["team_beta"], (underscoreTok t).isSome = true) :=
  ⟨c10_underscore_precondition.1 ["team_alpha"] [] c3Src c3Dst false c3Meta
      rfl rfl,
   c10_underscore_precondition.2.1 ["team_beta"] [] ["beta"] (some [])
      ⟨["beta"], []⟩ (by simp) rfl⟩

end PruneExport
